import Mathlib

/-!
Verification development for the altverseweb3 backend core
(rate limiter, period clock, metrics recorder, analytics reader).

The Python source under `src/lambda/src/` is shallowly embedded here:

* Pure helpers (`get_client_ip`, `get_time_periods`, `get_past_periods`)
  become Lean functions.
* Stateful code against DynamoDB becomes explicit state passing: the
  rate-limit table is a single `Option RateRecord` per client (all
  operations key on one `ip_address`), and the metrics table is a function
  from structured keys to optional items.  String-concatenated composite
  keys such as `STAT#daily#2024-05-01` or `SWAP#eth,arb` are modeled by
  structured key types (`PKey`, `SKey`) whose constructors carry the
  interpolated components; the `#`-separator makes the string encoding of
  distinct structured keys distinct, so this is faithful.
* Store faults are modeled by explicit outcome parameters threaded into
  the functions that have `try/except` blocks in the source, with one
  constructor per distinct exception class the source distinguishes
  (`ClientError` with code `ConditionalCheckFailedException`, any other
  `ClientError`, and exceptions that are not `ClientError` at all).
* Timestamps are UNIX epoch seconds (`Int`).  `datetime.isoformat` /
  `fromisoformat` round-trip exactly, so ISO-string timestamps stored in
  items are modeled by the epoch seconds themselves.
* Python `datetime` calendar operations (`strftime`, `weekday`,
  `isocalendar`, `timedelta` arithmetic) are embedded via the standard
  civil-calendar conversion on day numbers (days since 1970-01-01, which
  was a Thursday) and CPython's `isocalendar` algorithm on proleptic
  Gregorian ordinals.
-/

/-! ## Calendar primitives (python `datetime` semantics, UTC)

All divisions below are `/` and `%` on `Int`, which in Lean are Euclidean
division and remainder.  Every divisor below is a positive literal, and
Euclidean division by a positive divisor coincides with floor division,
which is the semantics of python's `//` and `%` and of the C code the
civil-calendar algorithm is transcribed from (where the original adjusts
truncating division to floor division by hand).
-/

/-- A proleptic Gregorian calendar date, as python's `datetime.date`. -/
structure Civil where
  y : Int
  m : Int
  d : Int
deriving DecidableEq, Repr

/-- Date of a day number (days since 1970-01-01, negative allowed);
the standard civil-from-days algorithm, which is what python's
`datetime.date.fromordinal`-family arithmetic computes. -/
def civilFromDays (z0 : Int) : Civil :=
  let z := z0 + 719468
  let era := z / 146097
  let doe := z - era * 146097
  let yoe := (doe - doe / 1460 + doe / 36524 - doe / 146096) / 365
  let y := yoe + era * 400
  let doy := doe - (365 * yoe + yoe / 4 - yoe / 100)
  let mp := (5 * doy + 2) / 153
  let d := doy - (153 * mp + 2) / 5 + 1
  let m := if mp < 10 then mp + 3 else mp - 9
  ⟨if m ≤ 2 then y + 1 else y, m, d⟩

/-- Day number (days since 1970-01-01) of a date; inverse direction of
`civilFromDays`. -/
def daysFromCivil (c : Civil) : Int :=
  let y := if c.m ≤ 2 then c.y - 1 else c.y
  let era := y / 400
  let yoe := y - era * 400
  let mp := (c.m + 9) % 12
  let doy := (153 * mp + 2) / 5 + c.d - 1
  let doe := yoe * 365 + yoe / 4 - yoe / 100 + doy
  era * 146097 + doe - 719468

/-- Python `date.weekday()` (Monday = 0 .. Sunday = 6) of a day number.
Day 0 (1970-01-01) was a Thursday, hence the offset 3. -/
def weekdayOfDay (e : Int) : Int :=
  (e + 3) % 7

/-- Zero-pad to two digits, as python's `%m`, `%d` and `{:02d}`. -/
def padTwo (n : Int) : String :=
  if n < 10 then "0" ++ toString n else toString n

/-- Zero-pad to four digits, as CPython's `%Y`. -/
def padFour (n : Int) : String :=
  if n < 10 then "000" ++ toString n
  else if n < 100 then "00" ++ toString n
  else if n < 1000 then "0" ++ toString n
  else toString n

/-- `strftime("%Y-%m-%d")`. -/
def formatYMD (c : Civil) : String :=
  padFour c.y ++ "-" ++ padTwo c.m ++ "-" ++ padTwo c.d

/-- Proleptic Gregorian ordinal of a day number, as python's
`date.toordinal()` (ordinal 1 = 0001-01-01). -/
def ordinalOfDay (e : Int) : Int :=
  e + 719163

/-- CPython's `_isoweek1monday`: ordinal of the Monday starting ISO week 1
of `year`. -/
def isoweek1monday (year : Int) : Int :=
  let firstday := ordinalOfDay (daysFromCivil ⟨year, 1, 1⟩)
  let firstweekday := (firstday + 6) % 7
  let week1monday := firstday - firstweekday
  if firstweekday > 3 then week1monday + 7 else week1monday

/-- CPython's `date.isocalendar()` on a day number: the ISO year, ISO week
number (1-based) and ISO weekday (1-based). -/
def isocalendar (e : Int) : Int × Int × Int :=
  let year := (civilFromDays e).y
  let today := ordinalOfDay e
  let week := (today - isoweek1monday year) / 7
  let day := (today - isoweek1monday year) % 7
  if week < 0 then
    let year := year - 1
    let week := (today - isoweek1monday year) / 7
    let day := (today - isoweek1monday year) % 7
    (year, week + 1, day + 1)
  else if week ≥ 52 ∧ today ≥ isoweek1monday (year + 1) then
    (year + 1, 1, day + 1)
  else
    (year, week + 1, day + 1)

/-- The leaderboard-week label `f"{year}-{week_num:02d}"`. -/
def isoLabel (r : Int × Int × Int) : String :=
  toString r.1 ++ "-" ++ padTwo r.2.1

/-- Result record of `get_time_periods` in `src/lambda/src/utils/utils.py`. -/
structure Periods where
  daily : String
  weekly : String
  monthly : String
  leaderboard_week : String
deriving DecidableEq, Repr

/-- `get_time_periods` (utils.py): bucket keys of the UTC instant `ts`
(epoch seconds).  `daily` is `strftime("%Y-%m-%d")`, `weekly` subtracts
`weekday()` days first, `monthly` is `strftime("%Y-%m-01")` (note the
literal `01` in the format string), and `leaderboard_week` formats
`isocalendar()`. -/
def get_time_periods (ts : Int) : Periods :=
  let e := ts / 86400
  let c := civilFromDays e
  { daily := formatYMD c
    weekly := formatYMD (civilFromDays (e - weekdayOfDay e))
    monthly := padFour c.y ++ "-" ++ padTwo c.m ++ "-01"
    leaderboard_week := isoLabel (isocalendar e) }

/-! ## Rate limiter (`src/lambda/src/utils/rate_limitter.py`)

The rate-limit table holds one record per `ip_address`; every operation of
one `rate_limit` invocation touches the single record of the requesting
client, so the store state is `Option RateRecord`.  The `ttl` attribute
(garbage-collection metadata set to next UTC midnight) is carried by no
claim and is read by no code path, so it is not modeled. -/

/-- A rate-limit record (minus the `ttl` GC attribute). -/
structure RateRecord where
  credits : Int
  last_replenish_time : Int
deriving DecidableEq, Repr

/-- Configuration from `src/lambda/src/config.py`. -/
def RATE_LIMIT : Int := 5000

/-- Window length in seconds, from `src/lambda/src/config.py`. -/
def BUCKET_DURATION : Int := 300

/-- Outcome of one `rate_limit` invocation: fall-through (request
proceeds), a 429 response carrying `retry_after_seconds`, or an uncaught
exception propagating out of the function. -/
inductive RLOutcome where
  | allowed
  | denied (retryAfterSeconds : Int)
  | raised
deriving DecidableEq, Repr

/-- Behavior of the store on the conditional `update_item` decrement:
it either works (performing the conditional update: succeed when the
`credits > :zero` condition holds, raise `ConditionalCheckFailedException`
otherwise), raises some other `ClientError`, or raises an exception that
is not a `ClientError` at all (e.g. a botocore connection error). -/
inductive UpdB where
  | works
  | clientErr
  | raised
deriving DecidableEq, Repr

/-- Fault profile for one `rate_limit` invocation.  `getFails` makes the
consistent read in `check_rate_limits` raise; `putFails` makes the
`put_item` (record creation or wholesale reset) raise; `updB` is the
behavior of the conditional decrement; `rereadFails` makes the
`get_item` inside the `ConditionalCheckFailedException` handler raise. -/
structure Faults where
  getFails : Bool
  putFails : Bool
  updB : UpdB
  rereadFails : Bool
deriving DecidableEq, Repr

/-- The fault-free profile. -/
def noFaults : Faults := ⟨false, false, .works, false⟩

/-- The record written by `update_new_ip`: credits `RATE_LIMIT - 1`
("Start with one credit already used for this request") and
`last_replenish_time = current_time`. -/
def update_new_ip (L now : Int) : RateRecord :=
  ⟨L - 1, now⟩

/-- `check_rate_limits(ip_address)`: returns the `allowed` flag, the
`reset_time` of the bucket info when denied, and the table state after the
call.  The whole body is wrapped in `try/except Exception`, returning
`(True, None)` on any error, so a failing read or a failing `put_item`
yields `allowed` with the state unchanged. -/
def check_rate_limits (L B now : Int) (getFails putFails : Bool)
    (s : Option RateRecord) : Bool × Option Int × Option RateRecord :=
  if getFails then (true, none, s)
  else
    match s with
    | none =>
        -- new IP: update_new_ip, then return True, None
        if putFails then (true, none, s)
        else (true, none, some (update_new_ip L now))
    | some r =>
        if now - r.last_replenish_time ≥ B then
          -- complete reset via put_item
          if putFails then (true, none, s)
          else
            let r' : RateRecord := ⟨L, now⟩
            if r'.credits ≤ 0 then (false, some (r'.last_replenish_time + B), some r')
            else (true, none, some r')
        else
          if r.credits ≤ 0 then (false, some (r.last_replenish_time + B), s)
          else (true, none, s)

/-- `rate_limit` steps 1–4 once the client ip is known: admission check,
429 on denial, then the conditional decrement with its
`except ClientError` handler.  `build_rate_limit_response` reports
`retry_after_seconds = max(0, reset_time - current_time)`. -/
def rate_limit_core (L B now : Int) (f : Faults)
    (s : Option RateRecord) : RLOutcome × Option RateRecord :=
  let chk := check_rate_limits L B now f.getFails f.putFails s
  match chk with
  | (false, info, s1) =>
      (.denied (max 0 ((info.getD 0) - now)), s1)
  | (true, _, s1) =>
      match f.updB with
      | .clientErr => (.allowed, s1)
      | .raised => (.raised, s1)
      | .works =>
          match s1 with
          | some r =>
              if r.credits > 0 then
                (.allowed, some ⟨r.credits - 1, r.last_replenish_time⟩)
              else
                -- ConditionalCheckFailedException: re-read and deny
                if f.rereadFails then (.raised, s1)
                else (.denied (max 0 (r.last_replenish_time + B - now)), s1)
          | none =>
              -- conditional update of an absent item also fails its condition
              if f.rereadFails then (.raised, s1)
              else (.denied (max 0 (0 + B - now)), s1)

/-! ## Client identity (`get_client_ip` in utils.py) -/

/-- The `requestContext.identity` object of a Lambda proxy event. -/
structure IdentityCtx where
  sourceIp : Option String
deriving DecidableEq, Repr

/-- The `requestContext` object. -/
structure RequestCtx where
  identity : Option IdentityCtx
deriving DecidableEq, Repr

/-- The parts of the inbound Lambda event that `get_client_ip` reads.
`headers` is `none` when the key is absent and `some []` for an empty
dict (both falsy in python). -/
structure ReqEvent where
  requestContext : Option RequestCtx
  headers : Option (List (String × String))
deriving DecidableEq, Repr

/-- `get_client_ip(event)`: `sourceIp` when `requestContext.identity`
exists (defaulting to "unknown" without consulting headers), else the
first comma-component of `X-Forwarded-For`, else "unknown". -/
def get_client_ip (ev : ReqEvent) : String :=
  match ev.requestContext with
  | some rc =>
      match rc.identity with
      | some idc => idc.sourceIp.getD "unknown"
      | none => fallbackHeaders ev
  | none => fallbackHeaders ev
where
  /-- The `headers` branch: python's `if headers and "X-Forwarded-For" in
  headers` is true exactly when the dict is present, nonempty and has the
  key, i.e. when the lookup succeeds. -/
  fallbackHeaders (ev : ReqEvent) : String :=
    match (ev.headers.getD []).lookup "X-Forwarded-For" with
    | some v => ((v.splitOn ",").headD "").trim
    | none => "unknown"

/-- Full `rate_limit(event, context)`: extract the ip, return immediately
(admitting, touching no store) when it is "unknown", otherwise run the
core.  The third component counts the store operations performed
(reads and writes of the rate-limit table). -/
def rate_limit (L B now : Int) (f : Faults) (ev : ReqEvent)
    (s : Option RateRecord) : RLOutcome × Option RateRecord × Nat :=
  if get_client_ip ev = "unknown" then (.allowed, s, 0)
  else
    let res := rate_limit_core L B now f s
    (res.1, res.2, storeOpsCount L B now f s)
where
  /-- Number of store calls the core makes on this path: the consistent
  read, plus the `put_item` when creating/resetting, plus the conditional
  update, plus the re-read in the condition-failure handler. -/
  storeOpsCount (L B now : Int) (f : Faults) (s : Option RateRecord) : Nat :=
    let chk := check_rate_limits L B now f.getFails f.putFails s
    let checkOps : Nat :=
      1 + (if f.getFails then 0 else
        match s with
        | none => 1
        | some r => if now - r.last_replenish_time ≥ B then 1 else 0)
    if chk.1 = false then checkOps
    else
      checkOps + 1 +
        (match f.updB with
         | .works =>
             (match chk.2.2 with
              | some r => if r.credits > 0 then 0 else 1
              | none => 1)
         | _ => 0)

/-- Fault-free single step on the table state (ip already known). -/
def rateStep (L B now : Int) (s : Option RateRecord) :
    RLOutcome × Option RateRecord :=
  rate_limit_core L B now noFaults s

/-- Table state after `n` fault-free sequential requests from one client
that starts with no record, all issued at time `t`. -/
def seqState (L B t : Int) : Nat → Option RateRecord
  | 0 => none
  | n + 1 => (rateStep L B t (seqState L B t n)).2

/-- Outcome of the `n`-th request (1-based) in that sequence. -/
def seqOutcome (L B t : Int) (n : Nat) : RLOutcome :=
  (rateStep L B t (seqState L B t (n - 1))).1

/-- Number of admitted requests among the first `n`. -/
def seqAllowedCount (L B t : Int) : Nat → Nat
  | 0 => 0
  | n + 1 =>
      seqAllowedCount L B t n +
        (if seqOutcome L B t (n + 1) = .allowed then 1 else 0)

/-! ## Analytics period lists (`get_past_periods` in utils.py)

`get_past_periods` formats the current period start, parses it back with
`strptime` (an exact round-trip, so the parse is modeled as the date
itself) and then iterates `limit` times, stepping back by one day, one
week (7 days), or one month (minus one day to reach the last day of the
previous month, then `replace(day=1)`). -/

/-- Python's Gregorian leap-year rule (`calendar.isleap` semantics used by
`datetime.date`). -/
def isLeap (y : Int) : Bool :=
  if y % 400 = 0 then true
  else if y % 100 = 0 then false
  else if y % 4 = 0 then true
  else false

/-- Number of days in a month, python `datetime.date` semantics. -/
def daysInMonth (y m : Int) : Int :=
  if m = 2 then (if isLeap y then 29 else 28)
  else if m = 4 ∨ m = 6 ∨ m = 9 ∨ m = 11 then 30
  else 31

/-- `date - timedelta(days=1)` on a calendar date. -/
def predDay (c : Civil) : Civil :=
  if c.d > 1 then ⟨c.y, c.m, c.d - 1⟩
  else if c.m > 1 then ⟨c.y, c.m - 1, daysInMonth c.y (c.m - 1)⟩
  else ⟨c.y - 1, 12, 31⟩

/-- The monthly loop body: `(current - timedelta(days=1)).replace(day=1)`. -/
def stepMonth (c : Civil) : Civil :=
  let p := predDay c
  ⟨p.y, p.m, 1⟩

/-- Daily branch of the `get_past_periods` loop, on day numbers
(`current_date -= timedelta(days=1)`). -/
def dloop (d : Int) : Nat → List String
  | 0 => []
  | n + 1 => formatYMD (civilFromDays d) :: dloop (d - 1) n

/-- Weekly branch (`current_date -= timedelta(weeks=1)`). -/
def wloop (d : Int) : Nat → List String
  | 0 => []
  | n + 1 => formatYMD (civilFromDays d) :: wloop (d - 7) n

/-- Monthly branch.  The loop's dates always have `day = 1`, on which
`strftime("%Y-%m-01")` agrees with `strftime("%Y-%m-%d")`, i.e.
`formatYMD`. -/
def mloop (c : Civil) : Nat → List String
  | 0 => []
  | n + 1 => formatYMD c :: mloop (stepMonth c) n

/-- `get_past_periods(period_type, limit)` (utils.py), with `now` passed
explicitly: the last `limit` period-start keys, most recent first.  An
unrecognized `period_type` yields `[]`. -/
def get_past_periods (period_type : String) (limit : Nat) (now_ts : Int) :
    List String :=
  let e := now_ts / 86400
  if period_type = "daily" then dloop e limit
  else if period_type = "weekly" then wloop (e - weekdayOfDay e) limit
  else if period_type = "monthly" then
    mloop ⟨(civilFromDays e).y, (civilFromDays e).m, 1⟩ limit
  else []

/-! ## Metrics store model

The DynamoDB metrics table, keyed by the string pairs `(PK, SK)` the
source interpolates.  Keys are modeled structurally, constructor by
format (`STAT#{period}#{date}`, `USER#{addr}`, `LEADERBOARD#{week}` for
partition keys; `GENERAL`, `STATS`, `SWAP#{src},{dst}`,
`LENDING#{chain}#{market}`, `EARN#{chain}#{protocol}`,
`{TYPE}#{timestamp}#{tx_hash}`, `USER#{addr}` for sort keys): the `#`
separators make the string encodings of distinct structured keys
distinct.  The all-time scope `STAT#all#ALL` is `PKey.stat "all" "ALL"`,
matching its interpolation format. -/

/-- Partition keys of the metrics table. -/
inductive PKey where
  | stat (period : String) (date : String)
  | user (addr : String)
  | board (week : String)
deriving DecidableEq, Repr

/-- Sort keys of the metrics table. -/
inductive SKey where
  | general
  | stats
  | swapBd (src : String) (dst : String)
  | lendBd (chain : String) (market : String)
  | earnBd (chain : String) (protocol : String)
  | swapEv (ts : String) (tx : String)
  | lendEv (ts : String) (tx : String)
  | earnEv (ts : String) (tx : String)
  | boardUser (addr : String)
deriving DecidableEq, Repr

/-- A metrics-table item: every attribute any code path reads or writes,
each optional (DynamoDB items are sparse).  Timestamps are epoch seconds
(`isoformat`/`fromisoformat` round-trip exactly).  `attrs` carries the
raw payload key/values of an event audit row. -/
structure Item where
  swap_count : Option Int := none
  lending_count : Option Int := none
  earn_count : Option Int := none
  dapp_entrances : Option Int := none
  new_users : Option Int := none
  active_users : Option Int := none
  count : Option Int := none
  total_xp : Option Int := none
  total_swap_count : Option Int := none
  total_lending_count : Option Int := none
  total_earn_count : Option Int := none
  first_active_timestamp : Option Int := none
  last_active_timestamp : Option Int := none
  ip_address : Option String := none
  leaderboard_scope : Option String := none
  xp : Option Int := none
  first_xp_timestamp : Option Int := none
  attrs : List (String × String) := []
  tx_type : Option String := none
deriving DecidableEq, Repr

/-- The metrics table state. -/
def Store := PKey → SKey → Option Item

/-- The empty table. -/
def emptyStore : Store := fun _ _ => none

/-- Point write. -/
def setItem (s : Store) (pk : PKey) (sk : SKey) (it : Item) : Store :=
  fun pk' sk' => if pk' = pk ∧ sk' = sk then some it else s pk' sk'

/-- One operation inside a `transact_write_items` call: a `Put` of a full
item, or an `Update` whose update expression is embedded as the function
it denotes on the present-or-absent item (`if_not_exists(f, 0) + inc`
semantics; DynamoDB creates the item when absent). -/
inductive WriteOp where
  | putOp (pk : PKey) (sk : SKey) (it : Item)
  | updOp (pk : PKey) (sk : SKey) (f : Option Item → Item)

/-- One call to the store made by a processor. -/
inductive StoreCall where
  | getCall (pk : PKey) (sk : SKey)
  | putCall (pk : PKey) (sk : SKey) (it : Item)
  | updCall (pk : PKey) (sk : SKey) (f : Option Item → Item)
  | transactCall (ops : List WriteOp)
  | batchGetCall (keys : List (PKey × SKey))

/-- Whether a call mutates the store. -/
def isMutCall : StoreCall → Bool
  | .getCall _ _ => false
  | .batchGetCall _ => false
  | _ => true

/-- Whether a call is a standalone (non-transactional) update. -/
def isUpdCall : StoreCall → Bool
  | .updCall _ _ _ => true
  | _ => false

/-- Apply one transaction operation. -/
def applyWriteOp (s : Store) : WriteOp → Store
  | .putOp pk sk it => setItem s pk sk it
  | .updOp pk sk f => setItem s pk sk (f (s pk sk))

/-- Apply one store call.  A `transactCall` applies all of its operations
(DynamoDB transactions are atomic: they apply entirely or, on failure,
not at all — a failed call simply does not appear in the applied
prefix). -/
def applyCall (s : Store) : StoreCall → Store
  | .getCall _ _ => s
  | .batchGetCall _ => s
  | .putCall pk sk it => setItem s pk sk it
  | .updCall pk sk f => setItem s pk sk (f (s pk sk))
  | .transactCall ops => ops.foldl applyWriteOp s

/-- Apply a list of store calls in order. -/
def applyCalls (s : Store) (cs : List StoreCall) : Store :=
  cs.foldl applyCall s

/-! ## Metrics recorder (`src/lambda/src/endpoints/metrics.py`) -/

/-- A metrics endpoint response: 200 with a message, 400 carrying the
`required` field list interpolated into the "missing one or more required
fields" message, or a 500. -/
inductive MResp where
  | ok (msg : String)
  | rejected (required : List String)
  | errorResp (msg : String)
deriving DecidableEq, Repr

/-- An event payload: the parsed JSON object, values stringified (they
are only ever copied or interpolated). -/
def Payload := List (String × String)

/-- `all(field in payload for field in required)`. -/
def hasAll (req : List String) (p : Payload) : Bool :=
  req.all fun f => (List.lookup f p).isSome

/-- The required-field names a payload is missing (what the spec says the
rejection should list). -/
def missingOf (req : List String) (p : Payload) : List String :=
  req.filter fun f => (List.lookup f p).isNone

/-- Required fields of a swap payload. -/
def swapRequired : List String :=
  ["user_address", "tx_hash", "protocol", "swap_provider", "source_chain",
   "source_token_address", "source_token_symbol", "amount_in",
   "destination_chain", "destination_token_address",
   "destination_token_symbol", "amount_out", "timestamp"]

/-- Required fields of a lending payload. -/
def lendingRequired : List String :=
  ["user_address", "tx_hash", "protocol", "action", "chain", "market_name",
   "token_address", "token_symbol", "amount", "timestamp"]

/-- Required fields of an earn payload. -/
def earnRequired : List String :=
  ["user_address", "tx_hash", "protocol", "action", "chain", "vault_name",
   "vault_address", "token_address", "token_symbol", "amount", "timestamp"]

/-- `get_user_state(user_address)`: `(is_new_user, last_active_timestamp)`
from the user's `STATS` item.  (The `except ClientError` fallback of the
source is a store-read fault path; store reads are modeled total here and
no claim touches that branch.) -/
def get_user_state (store : Store) (u : String) : Bool × Option Int :=
  match store (.user u) .stats with
  | none => (true, none)
  | some it => (false, it.last_active_timestamp)

/-- The per-period `active_inc` computed identically by
`process_swap` / `process_lending` / `process_earn`. -/
structure ActiveInc where
  daily : Int
  weekly : Int
  monthly : Int
deriving DecidableEq, Repr

/-- The `active_inc` block: a new user is active in every period; an
existing user with a truthy `last_active_timestamp` is newly active in a
period exactly when that period's bucket key changed; an existing user
without one gets all zeros. -/
def computeActiveInc (is_new : Bool) (last : Option Int) (now : Int) :
    ActiveInc :=
  if is_new then ⟨1, 1, 1⟩
  else
    match last with
    | some ts =>
        let lp := get_time_periods ts
        let cp := get_time_periods now
        ⟨if lp.daily ≠ cp.daily then 1 else 0,
         if lp.weekly ≠ cp.weekly then 1 else 0,
         if lp.monthly ≠ cp.monthly then 1 else 0⟩
    | none => ⟨0, 0, 0⟩

/-- `SET #c = if_not_exists(#c, :z) + :o` on a breakdown counter. -/
def incCount (old : Option Item) : Item :=
  let o := old.getD {}
  { o with count := some (o.count.getD 0 + 1) }

/-- The user-stats update expression shared in shape by all three
processors (`counterField` selects which `total_*_count` to bump). -/
def userStatsUpd (counterField : String) (xp now : Int) (is_new : Bool)
    (ip : String) (old : Option Item) : Item :=
  let o := old.getD {}
  let o :=
    if counterField = "swap" then
      { o with total_swap_count := some (o.total_swap_count.getD 0 + 1) }
    else if counterField = "lending" then
      { o with total_lending_count := some (o.total_lending_count.getD 0 + 1) }
    else
      { o with total_earn_count := some (o.total_earn_count.getD 0 + 1) }
  let o := { o with last_active_timestamp := some now,
                    total_xp := some (o.total_xp.getD 0 + xp) }
  if is_new then
    { o with first_active_timestamp := some now, ip_address := some ip,
             leaderboard_scope := some "GLOBAL" }
  else o

/-- The all-time `GENERAL` update for a swap:
`SET swap_count = if_not_exists(swap_count, :z) + :o` plus, for a new
user, `new_users = if_not_exists(new_users, :z) + :o`. -/
def allTimeGeneralSwapUpd (is_new : Bool) (old : Option Item) : Item :=
  let o := old.getD {}
  let o := { o with swap_count := some (o.swap_count.getD 0 + 1) }
  if is_new then { o with new_users := some (o.new_users.getD 0 + 1) } else o

/-- Same for a lending event. -/
def allTimeGeneralLendUpd (is_new : Bool) (old : Option Item) : Item :=
  let o := old.getD {}
  let o := { o with lending_count := some (o.lending_count.getD 0 + 1) }
  if is_new then { o with new_users := some (o.new_users.getD 0 + 1) } else o

/-- Same for an earn event. -/
def allTimeGeneralEarnUpd (is_new : Bool) (old : Option Item) : Item :=
  let o := old.getD {}
  let o := { o with earn_count := some (o.earn_count.getD 0 + 1) }
  if is_new then { o with new_users := some (o.new_users.getD 0 + 1) } else o

/-- The periodic `GENERAL` update for a swap: event count, `active_users`
by the computed increment, `new_users` when the user is new. -/
def periodGeneralSwapUpd (is_new : Bool) (ai : Int) (old : Option Item) :
    Item :=
  let o := old.getD {}
  let o := { o with swap_count := some (o.swap_count.getD 0 + 1),
                    active_users := some (o.active_users.getD 0 + ai) }
  if is_new then { o with new_users := some (o.new_users.getD 0 + 1) } else o

/-- Same for a lending event. -/
def periodGeneralLendUpd (is_new : Bool) (ai : Int) (old : Option Item) :
    Item :=
  let o := old.getD {}
  let o := { o with lending_count := some (o.lending_count.getD 0 + 1),
                    active_users := some (o.active_users.getD 0 + ai) }
  if is_new then { o with new_users := some (o.new_users.getD 0 + 1) } else o

/-- Same for an earn event. -/
def periodGeneralEarnUpd (is_new : Bool) (ai : Int) (old : Option Item) :
    Item :=
  let o := old.getD {}
  let o := { o with earn_count := some (o.earn_count.getD 0 + 1),
                    active_users := some (o.active_users.getD 0 + ai) }
  if is_new then { o with new_users := some (o.new_users.getD 0 + 1) } else o

/-- The leaderboard update: `SET xp = if_not_exists(xp, :z) + :xp_val,
first_xp_timestamp = if_not_exists(first_xp_timestamp, :ts)`. -/
def leaderboardUpd (xp now : Int) (old : Option Item) : Item :=
  let o := old.getD {}
  { o with xp := some (o.xp.getD 0 + xp),
           first_xp_timestamp := some (o.first_xp_timestamp.getD now) }

/-- The `dapp_entrances` increment of `process_entrance`. -/
def entranceUpd (old : Option Item) : Item :=
  let o := old.getD {}
  { o with dapp_entrances := some (o.dapp_entrances.getD 0 + 1) }

/-- `process_entrance()`: four standalone `update_item` calls — all-time
general then daily, weekly, monthly general — NOT grouped into a
transaction. -/
def process_entrance (now : Int) : MResp × List StoreCall :=
  let periods := get_time_periods now
  (.ok "Entrance recorded successfully",
    [.updCall (.stat "all" "ALL") .general entranceUpd,
     .updCall (.stat "daily" periods.daily) .general entranceUpd,
     .updCall (.stat "weekly" periods.weekly) .general entranceUpd,
     .updCall (.stat "monthly" periods.monthly) .general entranceUpd])

/-- `process_swap(payload, ip_address)`: validation, the user-state read,
then one `transact_write_items` with the event put, user stats, all-time
general and breakdown, the three periodic general/breakdown pairs, and
the leaderboard update — 11 operations in a single transaction. -/
def process_swap (payload : Payload) (ip : String) (now : Int)
    (store : Store) : MResp × List StoreCall :=
  if ¬ hasAll swapRequired payload then (.rejected swapRequired, [])
  else
    let u := (List.lookup "user_address" payload).getD ""
    let st := get_user_state store u
    let is_new := st.1
    let cp := get_time_periods now
    let ai := computeActiveInc is_new st.2 now
    let src := (List.lookup "source_chain" payload).getD ""
    let dst := (List.lookup "destination_chain" payload).getD ""
    let pts := (List.lookup "timestamp" payload).getD ""
    let tx := (List.lookup "tx_hash" payload).getD ""
    let ops : List WriteOp :=
      [.putOp (.user u) (.swapEv pts tx)
         { attrs := payload, tx_type := some "SWAP" },
       .updOp (.user u) .stats (userStatsUpd "swap" 50 now is_new ip),
       .updOp (.stat "all" "ALL") .general (allTimeGeneralSwapUpd is_new),
       .updOp (.stat "all" "ALL") (.swapBd src dst) incCount,
       .updOp (.stat "daily" cp.daily) .general
         (periodGeneralSwapUpd is_new ai.daily),
       .updOp (.stat "daily" cp.daily) (.swapBd src dst) incCount,
       .updOp (.stat "weekly" cp.weekly) .general
         (periodGeneralSwapUpd is_new ai.weekly),
       .updOp (.stat "weekly" cp.weekly) (.swapBd src dst) incCount,
       .updOp (.stat "monthly" cp.monthly) .general
         (periodGeneralSwapUpd is_new ai.monthly),
       .updOp (.stat "monthly" cp.monthly) (.swapBd src dst) incCount,
       .updOp (.board cp.leaderboard_week) (.boardUser u)
         (leaderboardUpd 50 now)]
    (.ok "Swap event processed successfully",
      [.getCall (.user u) .stats, .transactCall ops])

/-- `process_lending(payload, ip_address)`, same shape with the lending
breakdown key `LENDING#{chain}#{market_name}` and 100 XP. -/
def process_lending (payload : Payload) (ip : String) (now : Int)
    (store : Store) : MResp × List StoreCall :=
  if ¬ hasAll lendingRequired payload then (.rejected lendingRequired, [])
  else
    let u := (List.lookup "user_address" payload).getD ""
    let st := get_user_state store u
    let is_new := st.1
    let cp := get_time_periods now
    let ai := computeActiveInc is_new st.2 now
    let chain := (List.lookup "chain" payload).getD ""
    let market := (List.lookup "market_name" payload).getD ""
    let pts := (List.lookup "timestamp" payload).getD ""
    let tx := (List.lookup "tx_hash" payload).getD ""
    let ops : List WriteOp :=
      [.putOp (.user u) (.lendEv pts tx)
         { attrs := payload, tx_type := some "LEND" },
       .updOp (.user u) .stats (userStatsUpd "lending" 100 now is_new ip),
       .updOp (.stat "all" "ALL") .general (allTimeGeneralLendUpd is_new),
       .updOp (.stat "all" "ALL") (.lendBd chain market) incCount,
       .updOp (.stat "daily" cp.daily) .general
         (periodGeneralLendUpd is_new ai.daily),
       .updOp (.stat "daily" cp.daily) (.lendBd chain market) incCount,
       .updOp (.stat "weekly" cp.weekly) .general
         (periodGeneralLendUpd is_new ai.weekly),
       .updOp (.stat "weekly" cp.weekly) (.lendBd chain market) incCount,
       .updOp (.stat "monthly" cp.monthly) .general
         (periodGeneralLendUpd is_new ai.monthly),
       .updOp (.stat "monthly" cp.monthly) (.lendBd chain market) incCount,
       .updOp (.board cp.leaderboard_week) (.boardUser u)
         (leaderboardUpd 100 now)]
    (.ok "Lending event processed successfully",
      [.getCall (.user u) .stats, .transactCall ops])

/-- `process_earn(payload, ip_address)`, same shape with the earn
breakdown key `EARN#{chain}#{protocol}` and 100 XP. -/
def process_earn (payload : Payload) (ip : String) (now : Int)
    (store : Store) : MResp × List StoreCall :=
  if ¬ hasAll earnRequired payload then (.rejected earnRequired, [])
  else
    let u := (List.lookup "user_address" payload).getD ""
    let st := get_user_state store u
    let is_new := st.1
    let cp := get_time_periods now
    let ai := computeActiveInc is_new st.2 now
    let chain := (List.lookup "chain" payload).getD ""
    let protocol := (List.lookup "protocol" payload).getD ""
    let pts := (List.lookup "timestamp" payload).getD ""
    let tx := (List.lookup "tx_hash" payload).getD ""
    let ops : List WriteOp :=
      [.putOp (.user u) (.earnEv pts tx)
         { attrs := payload, tx_type := some "EARN" },
       .updOp (.user u) .stats (userStatsUpd "earn" 100 now is_new ip),
       .updOp (.stat "all" "ALL") .general (allTimeGeneralEarnUpd is_new),
       .updOp (.stat "all" "ALL") (.earnBd chain protocol) incCount,
       .updOp (.stat "daily" cp.daily) .general
         (periodGeneralEarnUpd is_new ai.daily),
       .updOp (.stat "daily" cp.daily) (.earnBd chain protocol) incCount,
       .updOp (.stat "weekly" cp.weekly) .general
         (periodGeneralEarnUpd is_new ai.weekly),
       .updOp (.stat "weekly" cp.weekly) (.earnBd chain protocol) incCount,
       .updOp (.stat "monthly" cp.monthly) .general
         (periodGeneralEarnUpd is_new ai.monthly),
       .updOp (.stat "monthly" cp.monthly) (.earnBd chain protocol) incCount,
       .updOp (.board cp.leaderboard_week) (.boardUser u)
         (leaderboardUpd 100 now)]
    (.ok "Earn event processed successfully",
      [.getCall (.user u) .stats, .transactCall ops])

/-- "All counter mutations are applied as a single atomic transaction":
the trace's mutating calls are exactly one `transact_write_items`. -/
def allMutationsInOneTransaction (calls : List StoreCall) : Prop :=
  ∃ ops : List WriteOp,
    calls.filter isMutCall = [StoreCall.transactCall ops]

/-! ## Analytics reader (`analytics/activity.py`) -/

/-- One element of the `periodic_activity_stats` response.  Python's float
division for `transactions_per_active_user` is modeled exactly over the
rationals. -/
structure ActEntry where
  period : String
  total_transactions : Int
  swap_count : Int
  lending_count : Int
  earn_count : Int
  dapp_entrances : Int
  active_users : Int
  transactions_per_active_user : Rat
deriving DecidableEq, Repr

/-- Build one response entry from the (possibly absent) `GENERAL` item of
a period, `item.get(field, 0)` defaults throughout. -/
def mkActEntry (date : String) (o : Option Item) : ActEntry :=
  let it := o.getD {}
  let sw := it.swap_count.getD 0
  let le := it.lending_count.getD 0
  let ea := it.earn_count.getD 0
  let au := it.active_users.getD 0
  let de := it.dapp_entrances.getD 0
  { period := date
    total_transactions := sw + le + ea
    swap_count := sw
    lending_count := le
    earn_count := ea
    dapp_entrances := de
    active_users := au
    transactions_per_active_user :=
      if au > 0 then ((sw + le + ea : Int) : Rat) / ((au : Int) : Rat)
      else 0 }

/-- An all-zero entry for a period with no stored data. -/
def zeroActEntry (date : String) : ActEntry :=
  ⟨date, 0, 0, 0, 0, 0, 0, 0⟩

/-- `get_periodic_activity_stats` (analytics/activity.py): validate
`period_type` and `limit`, compute the period keys, batch-read their
`GENERAL` items (pointwise reads of the same keys), and build the
response in the order of the computed keys, zero-defaulting periods with
no item. -/
def get_periodic_activity_stats (store : Store) (now_ts : Int)
    (period_type : String) (limit : Int) :
    Except String (List ActEntry) :=
  if ¬ (period_type = "daily" ∨ period_type = "weekly" ∨
        period_type = "monthly") then
    .error "Invalid period_type. Must be daily, weekly, or monthly."
  else if ¬ (1 ≤ limit ∧ limit ≤ 90) then
    .error "Invalid limit. Must be an integer between 1 and 90."
  else
    .ok ((get_past_periods period_type limit.toNat now_ts).map fun date =>
      mkActEntry date (store (.stat period_type date) .general))

/-- Month index of a first-of-month date (months since year 0). -/
def monthIdx (c : Civil) : Int :=
  12 * c.y + c.m - 1

/-- First-of-month date of a month index. -/
def ofMonthIdx (t : Int) : Civil :=
  ⟨t / 12, t % 12 + 1, 1⟩

/-- The closed form of the `i`-th key produced by `get_past_periods`
(0-based, most recent first): daily steps back one day, weekly seven
days, monthly one month index. -/
def nthPeriodKey (period_type : String) (now_ts : Int) (i : Nat) : String :=
  let e := now_ts / 86400
  if period_type = "daily" then formatYMD (civilFromDays (e - i))
  else if period_type = "weekly" then
    formatYMD (civilFromDays (e - weekdayOfDay e - 7 * i))
  else
    formatYMD (ofMonthIdx
      (monthIdx ⟨(civilFromDays e).y, (civilFromDays e).m, 1⟩ - i))

/-- The strictly decreasing date rank of the `i`-th key (day number for
daily/weekly, month index for monthly). -/
def nthPeriodRank (period_type : String) (now_ts : Int) (i : Nat) : Int :=
  let e := now_ts / 86400
  if period_type = "daily" then e - i
  else if period_type = "weekly" then e - weekdayOfDay e - 7 * i
  else monthIdx ⟨(civilFromDays e).y, (civilFromDays e).m, 1⟩ - i


/-- A complete swap payload for the user `u`: the spec scenario's
`source_chain "eth"`, `destination_chain "arb"`, `tx_hash "0x1"`,
`timestamp 1700000000`, with the remaining required fields filled. -/
def swapPayloadOf (u : String) : Payload :=
  [("user_address", u), ("tx_hash", "0x1"), ("protocol", "prot"),
   ("swap_provider", "prov"), ("source_chain", "eth"),
   ("source_token_address", "sta"), ("source_token_symbol", "STS"),
   ("amount_in", "1"), ("destination_chain", "arb"),
   ("destination_token_address", "dta"),
   ("destination_token_symbol", "DTS"), ("amount_out", "2"),
   ("timestamp", "1700000000")]

/-- A complete lending payload. -/
def lendingPayloadFull : Payload :=
  [("user_address", "0xA"), ("tx_hash", "0x1"), ("protocol", "prot"),
   ("action", "supply"), ("chain", "eth"), ("market_name", "mkt"),
   ("token_address", "ta"), ("token_symbol", "TS"), ("amount", "1"),
   ("timestamp", "1700000000")]

/-- A complete earn payload. -/
def earnPayloadFull : Payload :=
  [("user_address", "0xA"), ("tx_hash", "0x1"), ("protocol", "prot"),
   ("action", "deposit"), ("chain", "eth"), ("vault_name", "v"),
   ("vault_address", "va"), ("token_address", "ta"),
   ("token_symbol", "TS"), ("amount", "1"), ("timestamp", "1700000000")]

/-- The swap payload with exactly `tx_hash` missing. -/
def swapPayloadNoTx : Payload :=
  (swapPayloadOf "0xA").filter fun kv => kv.1 ≠ "tx_hash"


/-- The C5 scenario store: the swap event recorded at its own timestamp
`1700000000` on an empty store. -/
def swapScenarioFinal : Store :=
  applyCalls emptyStore
    (process_swap (swapPayloadOf "0xA") "1.2.3.4" 1700000000 emptyStore).2

/-- A store whose current-week leaderboard entry for the user already
exists (7 XP, `first_xp_timestamp` already stamped). -/
def swapScenarioPre : Store :=
  setItem emptyStore (.board "2023-46") (.boardUser "0xA")
    { xp := some 7, first_xp_timestamp := some 1600000000 }

/-- The same swap recorded on that pre-populated store. -/
def swapScenarioFinal2 : Store :=
  applyCalls swapScenarioPre
    (process_swap (swapPayloadOf "0xA") "1.2.3.4" 1700000000
      swapScenarioPre).2

example : seqOutcome RATE_LIMIT BUCKET_DURATION 1700000000 1 = .allowed := by decide
example : seqState 4 300 10 1 = some ⟨2, 10⟩ := by decide
example : seqOutcome 4 300 10 3 = .allowed := by decide
example : seqOutcome 4 300 10 4 = .denied 300 := by decide

/-- `check_rate_limits` on an absent record creates it with `L - 1`
credits and allows. -/
theorem check_none (L B now : Int) (gF : Bool) (hg : gF = false) :
    check_rate_limits L B now gF false none =
      (true, none, some ⟨L - 1, now⟩) := by
  subst hg
  rfl

/-- `check_rate_limits` on an unexpired record with positive credits. -/
theorem check_active (L B now c lrt : Int) (hwin : ¬ now - lrt ≥ B)
    (hc : ¬ c ≤ 0) :
    check_rate_limits L B now false false (some ⟨c, lrt⟩) =
      (true, none, some ⟨c, lrt⟩) := by
  simp [check_rate_limits, hwin, hc]

/-- `check_rate_limits` on an unexpired exhausted record denies with
`reset_time = last_replenish_time + B`. -/
theorem check_exhausted (L B now c lrt : Int) (hwin : ¬ now - lrt ≥ B)
    (hc : c ≤ 0) :
    check_rate_limits L B now false false (some ⟨c, lrt⟩) =
      (false, some (lrt + B), some ⟨c, lrt⟩) := by
  simp [check_rate_limits, hwin, hc]

/-- `check_rate_limits` on an expired record replaces it wholesale with
`L` credits and a fresh window. -/
theorem check_reset (L B now c lrt : Int) (hwin : now - lrt ≥ B)
    (hL : ¬ L ≤ 0) :
    check_rate_limits L B now false false (some ⟨c, lrt⟩) =
      (true, none, some ⟨L, now⟩) := by
  simp [check_rate_limits, hwin, hL]

/-- Reduction of the fault-free core once the admission check allowed and
the surviving record has positive credits: the conditional decrement
succeeds. -/
theorem core_decrements (L B now : Int) (s : Option RateRecord)
    (c lrt : Int)
    (hchk : check_rate_limits L B now false false s =
      (true, none, some ⟨c, lrt⟩))
    (hc : 0 < c) :
    rate_limit_core L B now noFaults s = (.allowed, some ⟨c - 1, lrt⟩) := by
  unfold rate_limit_core
  simp only [noFaults] at hchk ⊢
  rw [hchk]
  simp [hc]

/-- Reduction of the fault-free core once the admission check allowed but
the surviving record has no credits: the conditional decrement fails and
the request is denied off the re-read record. -/
theorem core_cond_fails (L B now : Int) (s : Option RateRecord)
    (c lrt : Int)
    (hchk : check_rate_limits L B now false false s =
      (true, none, some ⟨c, lrt⟩))
    (hc : ¬ 0 < c) :
    rate_limit_core L B now noFaults s =
      (.denied (max 0 (lrt + B - now)), some ⟨c, lrt⟩) := by
  unfold rate_limit_core
  simp only [noFaults] at hchk ⊢
  rw [hchk]
  simp [hc]

/-- Reduction of the fault-free core when the admission check denies. -/
theorem core_denies (L B now : Int) (s s1 : Option RateRecord) (rt : Int)
    (hchk : check_rate_limits L B now false false s = (false, some rt, s1)) :
    rate_limit_core L B now noFaults s =
      (.denied (max 0 (rt - now)), s1) := by
  unfold rate_limit_core
  simp only [noFaults] at hchk ⊢
  rw [hchk]
  rfl

/-- Fault-free step on a record whose window has not yet expired. -/
theorem rateStep_fresh (L B now c lrt : Int) (hwin : now - lrt < B) :
    rateStep L B now (some ⟨c, lrt⟩) =
      if c ≤ 0 then (.denied (max 0 (lrt + B - now)), some ⟨c, lrt⟩)
      else (.allowed, some ⟨c - 1, lrt⟩) := by
  have hw : ¬ (now - lrt ≥ B) := by omega
  by_cases hc : c ≤ 0
  · rw [if_pos hc, rateStep,
      core_denies L B now _ (some ⟨c, lrt⟩) (lrt + B)
        (check_exhausted L B now c lrt hw hc)]
  · rw [if_neg hc, rateStep,
      core_decrements L B now _ c lrt (check_active L B now c lrt hw hc)
        (by omega)]

/-- Fault-free step on an absent record: the record is created with
`L - 1` credits and then the unconditional decrement of step 3 runs as
well, leaving `L - 2` credits after the very first request. -/
theorem rateStep_new (L B now : Int) (hL : 2 ≤ L) :
    rateStep L B now none = (.allowed, some ⟨L - 2, now⟩) := by
  rw [rateStep, core_decrements L B now none (L - 1) now
    (check_none L B now false rfl) (by omega),
    show (L : Int) - 1 - 1 = L - 2 from by omega]

/-- In a same-instant sequence from an empty table, request `k` (for
`1 ≤ k ≤ L - 1`) is admitted and leaves `L - 1 - k` credits. -/
theorem seq_admitted (L B t : Int) (hB : 0 < B) :
    ∀ k : Nat, 1 ≤ k → (k : Int) ≤ L - 1 →
      seqState L B t k = some ⟨L - 1 - (k : Int), t⟩ ∧
        seqOutcome L B t k = .allowed := by
  intro k
  induction k with
  | zero => intro h; omega
  | succ n ih =>
      intro _ h2
      match n, ih with
      | 0, _ =>
          have hL : 2 ≤ L := by push_cast at h2; omega
          have hstep := rateStep_new L B t hL
          refine ⟨?_, ?_⟩
          · show (rateStep L B t (seqState L B t 0)).2 = _
            simp [seqState, hstep]
            omega
          · show (rateStep L B t (seqState L B t 0)).1 = _
            simp [seqState, seqOutcome, hstep]
      | m + 1, ih =>
          have hm : 1 ≤ m + 1 := by omega
          have hm2 : ((m + 1 : Nat) : Int) ≤ L - 1 := by push_cast at h2 ⊢; omega
          obtain ⟨hst, _⟩ := ih hm hm2
          have hcred : ¬ (L - 1 - ((m + 1 : Nat) : Int) ≤ 0) := by
            push_cast at h2 ⊢; omega
          have hstep := rateStep_fresh L B t (L - 1 - ((m + 1 : Nat) : Int)) t
            (by omega)
          rw [if_neg hcred] at hstep
          refine ⟨?_, ?_⟩
          · show (rateStep L B t (seqState L B t (m + 1))).2 = _
            rw [hst, hstep]
            simp
            omega
          · show (rateStep L B t (seqState L B t (m + 1))).1 = _
            rw [hst, hstep]

/-- Request `L` in that sequence is denied (it finds zero credits), with
`retry_after_seconds = B`. -/
theorem seq_denied (L B t : Int) (hB : 0 < B) (hL : 2 ≤ L)
    (k : Nat) (hk : (k : Int) = L) :
    seqOutcome L B t k = .denied B := by
  obtain ⟨k, rfl⟩ : ∃ m : Nat, m + 1 = k := by
    refine ⟨k - 1, ?_⟩
    have : k ≠ 0 := by rintro rfl; simp at hk; omega
    omega
  have hk1 : 1 ≤ k := by push_cast at hk; omega
  have hk2 : (k : Int) ≤ L - 1 := by push_cast at hk ⊢; omega
  obtain ⟨hst, _⟩ := seq_admitted L B t hB k hk1 hk2
  have hcred : L - 1 - (k : Int) ≤ 0 := by push_cast at hk ⊢; omega
  have hstep := rateStep_fresh L B t (L - 1 - (k : Int)) t (by omega)
  rw [if_pos hcred] at hstep
  show (rateStep L B t (seqState L B t (k + 1 - 1))).1 = _
  simp only [Nat.add_sub_cancel]
  rw [hst, hstep]
  show RLOutcome.denied (max 0 (t + B - t)) = RLOutcome.denied B
  congr 1
  omega

/-- Every request in the window before the `L`-th is counted admitted. -/
theorem seq_count (L B t : Int) (hB : 0 < B) :
    ∀ n : Nat, (n : Int) ≤ L - 1 → seqAllowedCount L B t n = n := by
  intro n
  induction n with
  | zero => intro _; rfl
  | succ m ih =>
      intro h
      have hm : ((m : Nat) : Int) ≤ L - 1 := by push_cast at h ⊢; omega
      have ho := (seq_admitted L B t hB (m + 1) (by omega)
        (by push_cast at h ⊢; omega)).2
      simp [seqAllowedCount, ih hm, ho]

/-- C1, failing input.  With the shipped configuration
(`RATE_LIMIT = 5000`, `BUCKET_DURATION = 300`), a client starting with no
record and issuing its requests at one instant has its first 4999
requests admitted and is denied on request number 5000 — not on request
5001 as the spec states.  `check_rate_limits` creates the record with
`credits = RATE_LIMIT - 1` ("one credit already used for this request",
per its own docstring) and then step 3 of `rate_limit` decrements again
for that same first request, so the first request consumes two credits. -/
theorem c1_first_request_consumes_two_credits :
    seqAllowedCount RATE_LIMIT BUCKET_DURATION 1700000000 4999 = 4999 ∧
      seqOutcome RATE_LIMIT BUCKET_DURATION 1700000000 5000 =
        .denied BUCKET_DURATION ∧
      seqState RATE_LIMIT BUCKET_DURATION 1700000000 1 =
        some ⟨RATE_LIMIT - 2, 1700000000⟩ := by
  refine ⟨?_, ?_, ?_⟩
  · exact seq_count RATE_LIMIT BUCKET_DURATION 1700000000 (by decide) 4999
      (by decide)
  · exact seq_denied RATE_LIMIT BUCKET_DURATION 1700000000 (by decide)
      (by decide) 5000 (by decide)
  · have := (seq_admitted RATE_LIMIT BUCKET_DURATION 1700000000 (by decide)
      1 (by decide) (by decide)).1
    simpa using this

/-- The credits-range invariant of a rate-limit table state. -/
def RLInv (L : Int) (s : Option RateRecord) : Prop :=
  ∀ r : RateRecord, s = some r → 0 ≤ r.credits ∧ r.credits ≤ L

/-- C6.  Assuming `LIMIT ≥ 1`, record creation (`update_new_ip`), the
admission check (including the wholesale window reset), and the full
fault-free request step (including the guarded decrement) all preserve
`credits ∈ [0, LIMIT]`. -/
theorem c6_credits_range_invariant (L B now : Int) (hL : 1 ≤ L)
    (s : Option RateRecord) (hs : RLInv L s) :
    RLInv L (some (update_new_ip L now)) ∧
      RLInv L (check_rate_limits L B now false false s).2.2 ∧
      RLInv L (rate_limit_core L B now noFaults s).2 := by
  have hL0 : ¬ L ≤ 0 := by omega
  have hchk : RLInv L (check_rate_limits L B now false false s).2.2 := by
    match s, hs with
    | none, _ =>
        rw [check_none L B now false rfl]
        intro r hr
        cases hr
        constructor <;> simp <;> omega
    | some ⟨c, lrt⟩, hs =>
        obtain ⟨h1, h2⟩ := hs ⟨c, lrt⟩ rfl
        simp only at h1 h2
        by_cases hrst : now - lrt ≥ B
        · rw [check_reset L B now c lrt hrst hL0]
          intro r hr
          cases hr
          constructor <;> simp <;> omega
        · by_cases hz : c ≤ 0
          · rw [check_exhausted L B now c lrt hrst hz]
            intro r hr
            cases hr
            exact ⟨h1, h2⟩
          · rw [check_active L B now c lrt hrst hz]
            intro r hr
            cases hr
            exact ⟨h1, h2⟩
  refine ⟨?_, hchk, ?_⟩
  · intro r hr
    cases hr
    constructor <;> simp [update_new_ip] <;> omega
  · rcases hc : check_rate_limits L B now false false s with ⟨b, info, s1⟩
    have hs1 : RLInv L s1 := by
      rw [hc] at hchk
      exact hchk
    match b, info with
    | false, info =>
        rcases hi : info with _ | rt
        · rw [rate_limit_core]
          simp only [noFaults]
          rw [hi] at hc
          rw [hc]
          exact hs1
        · rw [hi] at hc
          rw [core_denies L B now s s1 rt hc]
          exact hs1
    | true, info =>
        match s1, hs1 with
        | none, _ =>
            rw [rate_limit_core]
            simp only [noFaults]
            rw [hc]
            intro r hr
            by_cases hrr : (false : Bool) = true <;> simp [hrr] at hr
        | some ⟨c, lrt⟩, hs1 =>
            obtain ⟨h1, h2⟩ := hs1 ⟨c, lrt⟩ rfl
            simp only at h1 h2
            rw [rate_limit_core]
            simp only [noFaults]
            rw [hc]
            by_cases hp : c > 0 <;> simp only [hp, gt_iff_lt, if_pos, if_neg,
              ite_true, ite_false, reduceIte]
            · intro r hr
              cases hr
              constructor <;> simp <;> omega
            · intro r hr
              cases hr
              exact ⟨h1, h2⟩

/-- C6 witness at the shipped configuration on an empty table. -/
theorem c6_credits_range_invariant_witness :
    (1 : Int) ≤ RATE_LIMIT ∧ RLInv RATE_LIMIT none ∧
      RLInv RATE_LIMIT
        (rate_limit_core RATE_LIMIT BUCKET_DURATION 1700000000 noFaults
          none).2 := by
  have hinv : RLInv RATE_LIMIT none := by
    intro r hr
    cases hr
  exact And.intro (by decide) (And.intro hinv
    ((c6_credits_range_invariant RATE_LIMIT BUCKET_DURATION 1700000000
      (by decide) none hinv).2.2))

/-- C7, counterexample to "any other store error during the admission
check or the decrement results in Allowed, never in an error surfaced to
the caller": the decrement's handler catches only `ClientError`, so a
store fault raising anything else (e.g. a botocore connection error when
the store is unreachable) propagates out of `rate_limit` instead of
failing open. -/
theorem c7_non_clienterror_propagates :
    (rate_limit_core 5000 300 1700000000 ⟨false, false, .raised, false⟩
        (some ⟨5, 1700000000⟩)).1 = .raised ∧
      RLOutcome.raised ≠ RLOutcome.allowed := by
  constructor
  · rfl
  · decide

/-- C7 as amended.  (a) Any exception inside `check_rate_limits` is
swallowed and the check reports allowed with the state unchanged;
(b) when the check allowed but the record's credits are exhausted, the
conditional decrement fails its `credits > 0` guard and the request is
denied with `retry_after_seconds` computed from the freshly re-read
record's `last_replenish_time`; (c) a `ClientError` other than a
conditional-check failure during the decrement yields Allowed with the
state unchanged; (d) but an exception that is not a `ClientError` during
the decrement propagates to the caller instead of yielding Allowed. -/
theorem c7_failure_semantics (L B now c lrt : Int)
    (s : Option RateRecord) (pF : Bool) (hc : c ≤ 0) :
    check_rate_limits L B now true pF s = (true, none, s) ∧
      rate_limit_core L B now ⟨true, pF, .works, false⟩ (some ⟨c, lrt⟩) =
        (.denied (max 0 (lrt + B - now)), some ⟨c, lrt⟩) ∧
      ((check_rate_limits L B now false false s).1 = true →
        rate_limit_core L B now ⟨false, false, .clientErr, false⟩ s =
          (.allowed, (check_rate_limits L B now false false s).2.2)) ∧
      ((check_rate_limits L B now false false s).1 = true →
        rate_limit_core L B now ⟨false, false, .raised, false⟩ s =
          (.raised, (check_rate_limits L B now false false s).2.2)) := by
  refine ⟨rfl, ?_, ?_, ?_⟩
  · rw [rate_limit_core]
    show (match ((true : Bool), (none : Option Int), some (⟨c, lrt⟩ : RateRecord)) with
      | (false, info, s1) => (RLOutcome.denied (max 0 ((info.getD 0) - now)), s1)
      | (true, _, s1) => _) = _
    have hcc : ¬ ((⟨c, lrt⟩ : RateRecord).credits > 0) := by
      simp only
      omega
    simp [hcc]
  · intro h
    rcases hchk : check_rate_limits L B now false false s with ⟨b, info, s1⟩
    rw [hchk] at h
    simp only at h
    subst h
    rw [rate_limit_core]
    simp only
    rw [hchk]
  · intro h
    rcases hchk : check_rate_limits L B now false false s with ⟨b, info, s1⟩
    rw [hchk] at h
    simp only at h
    subst h
    rw [rate_limit_core]
    simp only
    rw [hchk]

/-- C7 amended-theorem witness at concrete inputs. -/
theorem c7_failure_semantics_witness :
    (5 : Int) ≤ 0 + 5 ∧
      rate_limit_core 5000 300 1700000100 ⟨true, false, .works, false⟩
          (some ⟨0, 1700000000⟩) =
        (.denied (max 0 (1700000000 + 300 - 1700000100)),
          some ⟨0, 1700000000⟩) :=
  ⟨by decide,
    (c7_failure_semantics 5000 300 1700000100 0 1700000000 none false
      (by decide)).2.1⟩

/-- The proposition "no `sourceIp` is present on the event". -/
def noSourceIp (ev : ReqEvent) : Prop :=
  ∀ rc : RequestCtx, ev.requestContext = some rc →
    ∀ idc : IdentityCtx, rc.identity = some idc → idc.sourceIp = none

/-- The proposition "no `X-Forwarded-For` header is present". -/
def noXFF (ev : ReqEvent) : Prop :=
  (ev.headers.getD []).lookup "X-Forwarded-For" = none

/-- C10.  When the event carries neither `requestContext.identity.sourceIp`
nor an `X-Forwarded-For` header, `get_client_ip` yields "unknown" and
`rate_limit` returns immediately: the request is admitted, the rate-limit
state is untouched, and zero store operations are performed, whatever the
limits, the store state and the fault profile. -/
theorem c10_unknown_client_bypasses (ev : ReqEvent) (h1 : noSourceIp ev)
    (h2 : noXFF ev) (L B now : Int) (f : Faults) (s : Option RateRecord) :
    get_client_ip ev = "unknown" ∧
      rate_limit L B now f ev s = (.allowed, s, 0) := by
  have hip : get_client_ip ev = "unknown" := by
    rw [noXFF] at h2
    rcases hrc : ev.requestContext with _ | rc
    · simp [get_client_ip, hrc, get_client_ip.fallbackHeaders, h2]
    · rcases hid : rc.identity with _ | idc
      · simp [get_client_ip, hrc, hid, get_client_ip.fallbackHeaders, h2]
      · simp [get_client_ip, hrc, hid, h1 rc hrc idc hid]
  exact ⟨hip, by rw [rate_limit, if_pos hip]⟩

/-- C10 witness: an event with a `requestContext.identity` lacking
`sourceIp` and no headers at all. -/
theorem c10_unknown_client_bypasses_witness :
    noSourceIp ⟨some ⟨some ⟨none⟩⟩, none⟩ ∧
      noXFF ⟨some ⟨some ⟨none⟩⟩, none⟩ ∧
      rate_limit RATE_LIMIT BUCKET_DURATION 1700000000 noFaults
          ⟨some ⟨some ⟨none⟩⟩, none⟩ (some ⟨7, 1700000000⟩) =
        (.allowed, some ⟨7, 1700000000⟩, 0) :=
  by
  have ha : noSourceIp ⟨some ⟨some ⟨none⟩⟩, none⟩ := by
    intro rc hrc idc hid
    cases hrc
    cases hid
    rfl
  have hb : noXFF ⟨some ⟨some ⟨none⟩⟩, none⟩ := by
    simp [noXFF]
  exact And.intro ha (And.intro hb
    ((c10_unknown_client_bypasses ⟨some ⟨some ⟨none⟩⟩, none⟩ ha hb
      RATE_LIMIT BUCKET_DURATION 1700000000 noFaults
      (some ⟨7, 1700000000⟩)).2))

/-- The month and day fields produced by `civilFromDays` are a valid
month number and a valid day-of-month bound. -/
theorem civilFromDays_bounds (z : Int) :
    1 ≤ (civilFromDays z).m ∧ (civilFromDays z).m ≤ 12 ∧
      1 ≤ (civilFromDays z).d ∧ (civilFromDays z).d ≤ 31 := by
  unfold civilFromDays
  simp only
  refine ⟨?_, ?_, ?_, ?_⟩ <;> first | (split <;> omega) | omega

example : civilFromDays 19675 = ⟨2023, 11, 14⟩ := by decide
example : civilFromDays 0 = ⟨1970, 1, 1⟩ := by decide
example : civilFromDays (-1) = ⟨1969, 12, 31⟩ := by decide
example : civilFromDays 11016 = ⟨2000, 2, 29⟩ := by decide
example : daysFromCivil ⟨2023, 11, 14⟩ = 19675 := by decide
example : daysFromCivil ⟨1970, 1, 1⟩ = 0 := by decide
example : weekdayOfDay 0 = 3 := by decide
example : weekdayOfDay 19675 = 1 := by decide
example : isocalendar 19675 = (2023, 46, 2) := by decide
example : isocalendar 19723 = (2024, 1, 1) := by decide
example : isocalendar 19722 = (2023, 52, 7) := by decide
example : isocalendar 16439 = (2015, 1, 7) := by decide
example : isocalendar 16440 = (2015, 2, 1) := by decide
example : get_time_periods 1700000000 =
    ⟨"2023-11-14", "2023-11-13", "2023-11-01", "2023-46"⟩ := by decide

/-- The `%Y-%m-01` format on `(y, m)` agrees with `formatYMD` on the
first of that month. -/
theorem monthlyFormat_eq_formatYMD (y m : Int) :
    padFour y ++ "-" ++ padTwo m ++ "-01" = formatYMD ⟨y, m, 1⟩ := by
  show (padFour y ++ "-" ++ padTwo m) ++ "-01" =
    ((padFour y ++ "-" ++ padTwo m) ++ "-") ++ padTwo 1
  have h : ("-" : String) ++ padTwo 1 = "-01" := by decide
  calc (padFour y ++ "-" ++ padTwo m) ++ "-01"
      = (padFour y ++ "-" ++ padTwo m) ++ ("-" ++ padTwo 1) := by rw [h]
    _ = ((padFour y ++ "-" ++ padTwo m) ++ "-") ++ padTwo 1 :=
        (String.append_assoc _ _ _).symm

/-- C8.  For every timestamp: `daily` formats the calendar date of the
UTC day containing `ts` (the day number `e` with
`86400 e ≤ ts < 86400 (e+1)`); `weekly` formats a Monday at most six days
on or before that day; `monthly` formats the first day of that date's
month; `leaderboard_week` is the `{ISOYear}-{ISOWeekNumber:02d}` label of
the CPython `isocalendar` computation; and the function is deterministic
(equal timestamps give equal period records — it is a pure function of
`ts`). -/
theorem c8_period_clock_correct (ts : Int) :
    (86400 * (ts / 86400) ≤ ts ∧ ts < 86400 * (ts / 86400 + 1)) ∧
      (get_time_periods ts).daily = formatYMD (civilFromDays (ts / 86400)) ∧
      (∃ w : Int,
        (get_time_periods ts).weekly = formatYMD (civilFromDays w) ∧
          weekdayOfDay w = 0 ∧ w ≤ ts / 86400 ∧ ts / 86400 - w < 7) ∧
      (get_time_periods ts).monthly =
        formatYMD ⟨(civilFromDays (ts / 86400)).y,
                   (civilFromDays (ts / 86400)).m, 1⟩ ∧
      (get_time_periods ts).leaderboard_week =
        isoLabel (isocalendar (ts / 86400)) ∧
      (∀ ts2 : Int, ts2 = ts → get_time_periods ts2 = get_time_periods ts) := by
  refine ⟨⟨by omega, by omega⟩, rfl, ?_, ?_, rfl, ?_⟩
  · refine ⟨ts / 86400 - weekdayOfDay (ts / 86400), rfl, ?_, ?_, ?_⟩
    · unfold weekdayOfDay
      omega
    · unfold weekdayOfDay
      omega
    · unfold weekdayOfDay
      omega
  · exact monthlyFormat_eq_formatYMD _ _
  · intro ts2 h
    rw [h]

/-- `ofMonthIdx` inverts `monthIdx` on valid first-of-month dates. -/
theorem ofMonthIdx_monthIdx (y m : Int) (h1 : 1 ≤ m) (h2 : m ≤ 12) :
    ofMonthIdx (monthIdx ⟨y, m, 1⟩) = ⟨y, m, 1⟩ := by
  unfold ofMonthIdx monthIdx
  simp only [Civil.mk.injEq]
  refine ⟨by omega, by omega, trivial⟩

/-- The monthly loop body steps the month index down by exactly one. -/
theorem stepMonth_ofMonthIdx (t : Int) :
    stepMonth (ofMonthIdx t) = ofMonthIdx (t - 1) := by
  unfold stepMonth predDay ofMonthIdx
  have hd : ¬ ((⟨t / 12, t % 12 + 1, 1⟩ : Civil).d > 1) := by
    simp only
    omega
  rw [if_neg hd]
  by_cases hm : (⟨t / 12, t % 12 + 1, 1⟩ : Civil).m > 1
  · rw [if_pos hm]
    simp only [Civil.mk.injEq] at hm ⊢
    refine ⟨by omega, by omega, trivial⟩
  · rw [if_neg hm]
    simp only [Civil.mk.injEq] at hm ⊢
    refine ⟨by omega, by omega, trivial⟩

theorem dloop_length (d : Int) : ∀ n, (dloop d n).length = n := by
  intro n
  induction n generalizing d with
  | zero => rfl
  | succ m ih => simp [dloop, ih]

theorem wloop_length (d : Int) : ∀ n, (wloop d n).length = n := by
  intro n
  induction n generalizing d with
  | zero => rfl
  | succ m ih => simp [wloop, ih]

theorem mloop_length (c : Civil) : ∀ n, (mloop c n).length = n := by
  intro n
  induction n generalizing c with
  | zero => rfl
  | succ m ih => simp [mloop, ih]

theorem dloop_get (n : Nat) :
    ∀ (d : Int) (i : Nat) (h : i < (dloop d n).length),
      (dloop d n).get ⟨i, h⟩ = formatYMD (civilFromDays (d - i)) := by
  induction n with
  | zero =>
      intro d i h
      simp [dloop] at h
  | succ m ih =>
      intro d i h
      match i with
      | 0 => simp [dloop]
      | j + 1 =>
          have hj : j < (dloop (d - 1) m).length := by
            simp [dloop_length] at h ⊢
            omega
          have := ih (d - 1) j hj
          simp only [dloop, List.get_cons_succ]
          rw [this]
          congr 2
          push_cast
          ring

theorem wloop_get (n : Nat) :
    ∀ (d : Int) (i : Nat) (h : i < (wloop d n).length),
      (wloop d n).get ⟨i, h⟩ = formatYMD (civilFromDays (d - 7 * i)) := by
  induction n with
  | zero =>
      intro d i h
      simp [wloop] at h
  | succ m ih =>
      intro d i h
      match i with
      | 0 => simp [wloop]
      | j + 1 =>
          have hj : j < (wloop (d - 7) m).length := by
            simp [wloop_length] at h ⊢
            omega
          have := ih (d - 7) j hj
          simp only [wloop, List.get_cons_succ]
          rw [this]
          congr 2
          push_cast
          ring

theorem mloop_get (n : Nat) :
    ∀ (t : Int) (i : Nat) (h : i < (mloop (ofMonthIdx t) n).length),
      (mloop (ofMonthIdx t) n).get ⟨i, h⟩ =
        formatYMD (ofMonthIdx (t - i)) := by
  induction n with
  | zero =>
      intro t i h
      simp [mloop] at h
  | succ m ih =>
      intro t i h
      match i with
      | 0 => simp [mloop]
      | j + 1 =>
          have hj : j < (mloop (ofMonthIdx (t - 1)) m).length := by
            simp [mloop_length] at h ⊢
            omega
          have hlist : mloop (ofMonthIdx t) (m + 1) =
              formatYMD (ofMonthIdx t) :: mloop (ofMonthIdx (t - 1)) m := by
            simp only [mloop, stepMonth_ofMonthIdx]
          rw [List.get_of_eq hlist]
          simp only [List.get_cons_succ]
          rw [ih (t - 1) j (by simpa using hj)]
          congr 2
          push_cast
          ring

/-- A period with no stored `GENERAL` record produces the all-zero entry. -/
theorem mkActEntry_none (date : String) :
    mkActEntry date none = zeroActEntry date := by
  simp [mkActEntry, zeroActEntry]

/-- The key list produced by `get_past_periods` has exactly `n` keys and
its `i`-th key is the closed-form `nthPeriodKey`. -/
theorem get_past_periods_spec (pt : String) (now_ts : Int) (n : Nat)
    (hpt : pt = "daily" ∨ pt = "weekly" ∨ pt = "monthly") :
    (get_past_periods pt n now_ts).length = n ∧
      ∀ (i : Nat) (h : i < (get_past_periods pt n now_ts).length),
        (get_past_periods pt n now_ts).get ⟨i, h⟩ =
          nthPeriodKey pt now_ts i := by
  rcases hpt with h | h | h <;> subst h
  · have hlist : get_past_periods "daily" n now_ts =
        dloop (now_ts / 86400) n := by
      simp [get_past_periods]
    refine ⟨by simp [hlist, dloop_length], ?_⟩
    intro i hi
    rw [List.get_of_eq hlist]
    rw [dloop_get n (now_ts / 86400) i (by simpa [hlist] using hi)]
    simp [nthPeriodKey]
  · have hlist : get_past_periods "weekly" n now_ts =
        wloop (now_ts / 86400 - weekdayOfDay (now_ts / 86400)) n := by
      simp [get_past_periods]
    refine ⟨by simp [hlist, wloop_length], ?_⟩
    intro i hi
    rw [List.get_of_eq hlist]
    rw [wloop_get n (now_ts / 86400 - weekdayOfDay (now_ts / 86400)) i
      (by simpa [hlist] using hi)]
    simp [nthPeriodKey]
  · have hb := civilFromDays_bounds (now_ts / 86400)
    have hstart := ofMonthIdx_monthIdx (civilFromDays (now_ts / 86400)).y
      (civilFromDays (now_ts / 86400)).m hb.1 hb.2.1
    have hlist : get_past_periods "monthly" n now_ts =
        mloop (ofMonthIdx (monthIdx
          ⟨(civilFromDays (now_ts / 86400)).y,
           (civilFromDays (now_ts / 86400)).m, 1⟩)) n := by
      simp [get_past_periods]
      rw [hstart]
    refine ⟨by simp [hlist, mloop_length], ?_⟩
    intro i hi
    rw [List.get_of_eq hlist]
    rw [mloop_get n _ i (by simpa [hlist] using hi)]
    simp [nthPeriodKey]

/-- C9.  For every store, instant, valid period type and valid limit, the
periodic stats query succeeds with exactly `limit` entries; the `i`-th
entry is aligned to the `i`-th consecutive period-start key going
backward from the current period; a period whose `GENERAL` record is
absent contributes the all-zero entry; and the keys are in strictly
descending date order (their day-number/month-index rank strictly
decreases). -/
theorem c9_periodic_stats_zero_fill (store : Store) (now_ts : Int)
    (pt : String) (limit : Int)
    (hpt : pt = "daily" ∨ pt = "weekly" ∨ pt = "monthly")
    (h1 : 1 ≤ limit) (h2 : limit ≤ 90) :
    ∃ entries : List ActEntry,
      get_periodic_activity_stats store now_ts pt limit =
        Except.ok entries ∧
        entries.length = limit.toNat ∧
        (∀ (i : Nat) (h : i < entries.length),
          (entries.get ⟨i, h⟩).period = nthPeriodKey pt now_ts i) ∧
        (∀ (i : Nat) (h : i < entries.length),
          store (.stat pt (nthPeriodKey pt now_ts i)) .general = none →
            entries.get ⟨i, h⟩ = zeroActEntry (nthPeriodKey pt now_ts i)) ∧
        (∀ i j : Nat, i < j →
          nthPeriodRank pt now_ts j < nthPeriodRank pt now_ts i) := by
  refine ⟨(get_past_periods pt limit.toNat now_ts).map fun date =>
    mkActEntry date (store (.stat pt date) .general), ?_, ?_, ?_, ?_, ?_⟩
  · rw [get_periodic_activity_stats, if_neg (not_not_intro hpt),
      if_neg (not_not_intro ⟨h1, h2⟩)]
  · rw [List.length_map]
    exact (get_past_periods_spec pt now_ts limit.toNat hpt).1
  · intro i h
    rw [List.get_map]
    have hk := (get_past_periods_spec pt now_ts limit.toNat hpt).2 i
      (by simpa using h)
    rw [hk]
    rfl
  · intro i h hnone
    rw [List.get_map]
    have hk := (get_past_periods_spec pt now_ts limit.toNat hpt).2 i
      (by simpa using h)
    rw [hk, hnone, mkActEntry_none]
  · intro i j hij
    rcases hpt with h | h | h <;> subst h <;> simp [nthPeriodRank] <;> omega

/-- C9 witness: daily, limit 7, empty store, at a concrete instant. -/
theorem c9_periodic_stats_zero_fill_witness :
    ("daily" = "daily" ∨ "daily" = "weekly" ∨ "daily" = "monthly") ∧
      ((1 : Int) ≤ 7 ∧ (7 : Int) ≤ 90) ∧
      ∃ entries : List ActEntry,
        get_periodic_activity_stats emptyStore 1700000000 "daily" 7 =
          Except.ok entries ∧
          entries.length = (7 : Int).toNat ∧
          (∀ (i : Nat) (h : i < entries.length),
            (entries.get ⟨i, h⟩).period =
              nthPeriodKey "daily" 1700000000 i) ∧
          (∀ (i : Nat) (h : i < entries.length),
            emptyStore
                (.stat "daily" (nthPeriodKey "daily" 1700000000 i))
                .general = none →
              entries.get ⟨i, h⟩ =
                zeroActEntry (nthPeriodKey "daily" 1700000000 i)) ∧
          (∀ i j : Nat, i < j →
            nthPeriodRank "daily" 1700000000 j <
              nthPeriodRank "daily" 1700000000 i) :=
  ⟨Or.inl rfl, ⟨by decide, by decide⟩,
    c9_periodic_stats_zero_fill emptyStore 1700000000 "daily" 7
      (Or.inl rfl) (by decide) (by decide)⟩

/-- C2, counterexample.  Recording an entrance event is not a single
atomic transaction: its four counter updates are four standalone
`update_item` calls, so the store semantics admits a partial application
— after only the first call, the all-time `dapp_entrances` counter is
written while the daily one is not. -/
theorem c2_entrance_not_one_transaction :
    ¬ allMutationsInOneTransaction (process_entrance 1700000000).2 ∧
      (applyCalls emptyStore ((process_entrance 1700000000).2.take 1)
          (.stat "all" "ALL") .general ≠ none) ∧
      (applyCalls emptyStore ((process_entrance 1700000000).2.take 1)
          (.stat "daily" "2023-11-14") .general = none) := by
  refine ⟨?_, by decide, by decide⟩
  rintro ⟨ops, hops⟩
  rw [show (process_entrance 1700000000).2.filter isMutCall =
    (process_entrance 1700000000).2 from rfl] at hops
  have hlen := congrArg List.length hops
  rw [show ((process_entrance 1700000000).2).length = 4 from rfl] at hlen
  simp at hlen

/-- C2 as amended.  For any valid payload, the swap, lending and earn
write paths perform exactly one mutating store call, a single
`transact_write_items` containing every counter mutation of the event;
the entrance write path instead performs four standalone `update_item`
calls (individually atomic, not grouped into a transaction). -/
theorem c2_swap_lending_earn_single_transaction :
    (∀ (payload : Payload) (ip : String) (now : Int) (store : Store),
      hasAll swapRequired payload = true →
        allMutationsInOneTransaction (process_swap payload ip now store).2) ∧
      (∀ (payload : Payload) (ip : String) (now : Int) (store : Store),
        hasAll lendingRequired payload = true →
          allMutationsInOneTransaction
            (process_lending payload ip now store).2) ∧
      (∀ (payload : Payload) (ip : String) (now : Int) (store : Store),
        hasAll earnRequired payload = true →
          allMutationsInOneTransaction
            (process_earn payload ip now store).2) ∧
      (∀ now : Int,
        ((process_entrance now).2.filter isMutCall).length = 4 ∧
          ∀ c ∈ (process_entrance now).2, isUpdCall c = true) := by
  refine ⟨?_, ?_, ?_, ?_⟩
  · intro payload ip now store h
    rw [process_swap, if_neg (not_not_intro h)]
    exact ⟨_, rfl⟩
  · intro payload ip now store h
    rw [process_lending, if_neg (not_not_intro h)]
    exact ⟨_, rfl⟩
  · intro payload ip now store h
    rw [process_earn, if_neg (not_not_intro h)]
    exact ⟨_, rfl⟩
  · intro now
    refine ⟨rfl, ?_⟩
    intro c hc
    simp only [process_entrance, List.mem_cons, List.not_mem_nil,
      or_false] at hc
    rcases hc with rfl | rfl | rfl | rfl <;> rfl

/-- C2 amended-theorem witness on complete concrete payloads. -/
theorem c2_swap_lending_earn_single_transaction_witness :
    hasAll swapRequired (swapPayloadOf "0xA") = true ∧
      hasAll lendingRequired lendingPayloadFull = true ∧
      hasAll earnRequired earnPayloadFull = true ∧
      allMutationsInOneTransaction
        (process_swap (swapPayloadOf "0xA") "1.2.3.4" 1700000000
          emptyStore).2 :=
  ⟨by decide, by decide, by decide,
    c2_swap_lending_earn_single_transaction.1 (swapPayloadOf "0xA")
      "1.2.3.4" 1700000000 emptyStore (by decide)⟩

/-- C3, counterexample.  A swap payload missing exactly `tx_hash` is
rejected, but the response's message interpolates the full `required`
list of thirteen field names, not the list of missing names
(`["tx_hash"]`): the claim "listing exactly the names of the missing
fields" is false on the code. -/
theorem c3_rejection_lists_all_required_fields :
    missingOf swapRequired swapPayloadNoTx = ["tx_hash"] ∧
      (process_swap swapPayloadNoTx "1.2.3.4" 1700000000 emptyStore).1 =
        .rejected swapRequired ∧
      (process_swap swapPayloadNoTx "1.2.3.4" 1700000000 emptyStore).1 ≠
        .rejected (missingOf swapRequired swapPayloadNoTx) := by
  exact ⟨by decide, by decide, by decide⟩

/-- C3 as amended.  A payload missing one or more required fields is
rejected with the full required-field list of that event type in the
message, and the processor performs no store call of any kind — the
trace is empty, so no write (nor read) precedes the rejection. -/
theorem c3_missing_fields_rejected_before_store :
    (∀ (payload : Payload) (ip : String) (now : Int) (store : Store),
      hasAll swapRequired payload = false →
        process_swap payload ip now store = (.rejected swapRequired, [])) ∧
      (∀ (payload : Payload) (ip : String) (now : Int) (store : Store),
        hasAll lendingRequired payload = false →
          process_lending payload ip now store =
            (.rejected lendingRequired, [])) ∧
      (∀ (payload : Payload) (ip : String) (now : Int) (store : Store),
        hasAll earnRequired payload = false →
          process_earn payload ip now store =
            (.rejected earnRequired, [])) := by
  refine ⟨?_, ?_, ?_⟩
  · intro payload ip now store h
    rw [process_swap, if_pos (by simp [h])]
  · intro payload ip now store h
    rw [process_lending, if_pos (by simp [h])]
  · intro payload ip now store h
    rw [process_earn, if_pos (by simp [h])]

/-- C3 amended-theorem witness on the concrete deficient payload. -/
theorem c3_missing_fields_rejected_before_store_witness :
    hasAll swapRequired swapPayloadNoTx = false ∧
      process_swap swapPayloadNoTx "1.2.3.4" 1700000000 emptyStore =
        (.rejected swapRequired, []) :=
  ⟨by decide,
    c3_missing_fields_rejected_before_store.1 swapPayloadNoTx "1.2.3.4"
      1700000000 emptyStore (by decide)⟩

/-- C4.  With no user-stats record, `get_user_state` reports a new user,
the activity increment is 1 for each of daily/weekly/monthly, and the
swap write transaction increments the all-time `new_users` counter by
exactly 1 over its prior (absent-as-zero) value.  With a record carrying
`last_active_timestamp`, the increment of each period is 1 if that
period's bucket key of `periodsFor(lastActive)` differs from
`periodsFor(now)` and 0 otherwise. -/
theorem c4_new_user_and_period_detection (store : Store) (u : String)
    (now ts : Int) (ip : String) :
    (store (.user u) .stats = none →
      get_user_state store u = (true, none) ∧
        computeActiveInc (get_user_state store u).1
          (get_user_state store u).2 now = ⟨1, 1, 1⟩ ∧
        ((applyCalls store
            (process_swap (swapPayloadOf u) ip now store).2
              (.stat "all" "ALL") .general).getD {}).new_users =
          some
            (((store (.stat "all" "ALL") .general).getD {}).new_users.getD 0
              + 1)) ∧
      (∀ it : Item, store (.user u) .stats = some it →
        it.last_active_timestamp = some ts →
        get_user_state store u = (false, some ts) ∧
          computeActiveInc (get_user_state store u).1
              (get_user_state store u).2 now =
            ⟨if (get_time_periods ts).daily ≠ (get_time_periods now).daily
              then 1 else 0,
             if (get_time_periods ts).weekly ≠ (get_time_periods now).weekly
              then 1 else 0,
             if (get_time_periods ts).monthly ≠
                (get_time_periods now).monthly then 1 else 0⟩ ∧
          ((computeActiveInc false (some ts) now).daily = 1 ↔
            (get_time_periods ts).daily ≠ (get_time_periods now).daily) ∧
          ((computeActiveInc false (some ts) now).weekly = 1 ↔
            (get_time_periods ts).weekly ≠ (get_time_periods now).weekly) ∧
          ((computeActiveInc false (some ts) now).monthly = 1 ↔
            (get_time_periods ts).monthly ≠
              (get_time_periods now).monthly)) := by
  constructor
  · intro h
    have hg : get_user_state store u = (true, none) := by
      rw [get_user_state, h]
    have hv : hasAll swapRequired (swapPayloadOf u) = true := by rfl
    refine ⟨hg, by rw [hg]; rfl, ?_⟩
    rw [process_swap, if_neg (not_not_intro hv)]
    simp only [show (List.lookup "user_address" (swapPayloadOf u)).getD ""
      = u from rfl, hg]
    simp [applyCalls, applyCall, applyWriteOp, setItem,
      allTimeGeneralSwapUpd, userStatsUpd, leaderboardUpd, incCount,
      periodGeneralSwapUpd]
  · intro it hit hts
    have hg : get_user_state store u = (false, some ts) := by
      simp [get_user_state, hit, hts]
    refine ⟨hg, ?_, ?_, ?_, ?_⟩
    · rw [hg]
      rw [computeActiveInc]
      simp only [Bool.false_eq_true, if_false, reduceIte]
    · rw [computeActiveInc]
      by_cases hd : (get_time_periods ts).daily = (get_time_periods now).daily <;>
        simp [hd]
    · rw [computeActiveInc]
      by_cases hd : (get_time_periods ts).weekly = (get_time_periods now).weekly <;>
        simp [hd]
    · rw [computeActiveInc]
      by_cases hd : (get_time_periods ts).monthly = (get_time_periods now).monthly <;>
        simp [hd]

/-- C4 witness on the empty store. -/
theorem c4_new_user_and_period_detection_witness :
    emptyStore (.user "0xA") .stats = none ∧
      (get_user_state emptyStore "0xA" = (true, none) ∧
        computeActiveInc (get_user_state emptyStore "0xA").1
          (get_user_state emptyStore "0xA").2 1700000000 = ⟨1, 1, 1⟩ ∧
        ((applyCalls emptyStore
            (process_swap (swapPayloadOf "0xA") "1.2.3.4" 1700000000
              emptyStore).2 (.stat "all" "ALL") .general).getD
          {}).new_users =
          some (((emptyStore (.stat "all" "ALL") .general).getD
            {}).new_users.getD 0 + 1)) :=
  ⟨rfl, (c4_new_user_and_period_detection emptyStore "0xA" 1700000000 0
    "1.2.3.4").1 rfl⟩

/-- C5.  Recording the scenario swap (`source_chain "eth"`,
`destination_chain "arb"`, user `0xA`, recorded at its timestamp
`1700000000`, whose UTC day is 2023-11-14 and ISO week 2023-46) on an
empty store succeeds and: creates the breakdown counter `SWAP#eth,arb`
with count 1 in the all-time scope and in the daily scope of the event's
day; sets the user's `total_xp` to 50; and credits 50 XP to the
current-ISO-week leaderboard entry, stamping `first_xp_timestamp`
because it was absent.  On a store whose leaderboard entry already
exists with 7 XP and an earlier stamp, the same swap adds 50 XP (57) and
leaves `first_xp_timestamp` untouched. -/
theorem c5_swap_breakdown_and_xp :
    (process_swap (swapPayloadOf "0xA") "1.2.3.4" 1700000000 emptyStore).1
        = .ok "Swap event processed successfully" ∧
      ((swapScenarioFinal (.stat "all" "ALL")
          (.swapBd "eth" "arb")).getD {}).count = some 1 ∧
      ((swapScenarioFinal (.stat "daily" "2023-11-14")
          (.swapBd "eth" "arb")).getD {}).count = some 1 ∧
      ((swapScenarioFinal (.user "0xA") .stats).getD {}).total_xp =
        some 50 ∧
      ((swapScenarioFinal (.board "2023-46")
          (.boardUser "0xA")).getD {}).xp = some 50 ∧
      ((swapScenarioFinal (.board "2023-46")
          (.boardUser "0xA")).getD {}).first_xp_timestamp =
        some 1700000000 ∧
      ((swapScenarioFinal2 (.board "2023-46")
          (.boardUser "0xA")).getD {}).xp = some 57 ∧
      ((swapScenarioFinal2 (.board "2023-46")
          (.boardUser "0xA")).getD {}).first_xp_timestamp =
        some 1600000000 := by
  decide
